import Mathlib

/-!
Shallow embedding of the TardeBot trading engine and of the broker client's
request/retry/caching layer, together with theorems checking the system's
specification against the code.

Prices, balances and thresholds are modelled as rationals (`ℚ`); Python's
`int(...)` truncation is modelled by `pyInt`; Python dicts keyed by strings
are modelled as association lists; every fallible call into the broker is
modelled by an explicit environment of responses (`none` = the call failed
or the response was falsy).
-/

/-- Python's `int(x)` applied to a rational: truncation toward zero. -/
def pyInt (q : ℚ) : ℤ := if 0 ≤ q then ⌊q⌋ else ⌈q⌉

/-- Lookup in an association list (Python `dict` access / `in` test). -/
def dictFind {α : Type} (ps : List (String × α)) (s : String) : Option α :=
  match ps with
  | [] => none
  | (k, v) :: rest => if k = s then some v else dictFind rest s

/-- Python `dict.get(key, 0)` for integer-valued position dicts. -/
def posGet (ps : List (String × Int)) (s : String) : Int :=
  (dictFind ps s).getD 0

/-- Python `dict[key] = v`: replace the binding if present, else add it. -/
def posSet {α : Type} (ps : List (String × α)) (s : String) (v : α) :
    List (String × α) :=
  match ps with
  | [] => [(s, v)]
  | (k, w) :: rest => if k = s then (k, v) :: rest else (k, w) :: posSet rest s v

/-- First element of a list satisfying a predicate (Python `for`-loop with
`break` on the first hit). -/
def findFirst {α : Type} (p : α → Bool) : List α → Option α
  | [] => none
  | a :: rest => if p a then some a else findFirst p rest

namespace TradingBot

/-- One entry of `self.trade_history` in `src/trading/bot.py`: the `'cost'`
key is present on BUY records, the `'revenue'` key on SELL records. -/
structure Trade where
  action : String
  symbol : String
  quantity : ℤ
  price : ℚ
  cost : Option ℚ
  revenue : Option ℚ
  expected_change : ℚ
  deriving DecidableEq, Repr

/-- The mutable state of the simulated `TradingBot` (`src/trading/bot.py`):
`self.balance`, `self.positions`, `self.trade_history`. -/
structure State where
  balance : ℚ
  positions : List (String × ℤ)
  trade_history : List Trade
  deriving DecidableEq, Repr

/-- The test `self.symbol in self.positions and self.positions[self.symbol] > 0`. -/
def holdsPosition (ps : List (String × ℤ)) (s : String) : Bool :=
  match dictFind ps s with
  | some q => decide (0 < q)
  | none => false

/-- `TradingBot._buy_signal` (src/trading/bot.py lines 125-153). -/
def buy_signal (st : State) (symbol : String)
    (max_position_size current_price expected_change : ℚ) : State :=
  if holdsPosition st.positions symbol then st
  else
    let max_investment := st.balance * max_position_size
    let quantity := pyInt (max_investment / current_price)
    if 0 < quantity ∧ (quantity : ℚ) * current_price ≤ st.balance then
      let cost := (quantity : ℚ) * current_price
      { balance := st.balance - cost
        positions := posSet st.positions symbol (posGet st.positions symbol + quantity)
        trade_history := st.trade_history ++
          [{ action := "BUY", symbol := symbol, quantity := quantity,
             price := current_price, cost := some cost, revenue := none,
             expected_change := expected_change }] }
    else st

/-- `TradingBot._sell_signal` (src/trading/bot.py lines 155-177). -/
def sell_signal (st : State) (symbol : String)
    (current_price expected_change : ℚ) : State :=
  match dictFind st.positions symbol with
  | none => st
  | some quantity =>
    if quantity ≤ 0 then st
    else
      let revenue := (quantity : ℚ) * current_price
      { balance := st.balance + revenue
        positions := posSet st.positions symbol 0
        trade_history := st.trade_history ++
          [{ action := "SELL", symbol := symbol, quantity := quantity,
             price := current_price, cost := none, revenue := some revenue,
             expected_change := expected_change }] }

/-- `TradingBot._make_trading_decision` (src/trading/bot.py lines 108-123). -/
def make_trading_decision (st : State) (symbol : String)
    (max_position_size prediction_threshold current_price predicted_price : ℚ) :
    State :=
  let price_change_percent := (predicted_price - current_price) / current_price
  if prediction_threshold < price_change_percent then
    buy_signal st symbol max_position_size current_price price_change_percent
  else if price_change_percent < -prediction_threshold then
    sell_signal st symbol current_price price_change_percent
  else st

end TradingBot

namespace AlfaBroker

/-- One observed outcome of an HTTP attempt in `AlfaBroker._make_request`
(src/brokers/alfa_broker.py lines 35-60): either a response with a status
code and a parsed body, or a transport fault (an exception in the `try`). -/
inductive HttpOutcome (B : Type) where
  | resp (status : Nat) (body : B)
  | fault
  deriving DecidableEq, Repr

/-- `AlfaBroker._make_request` run against a stream of attempt outcomes:
status 200 returns the parsed body, status 429 sleeps one time unit and
retries the identical request on the next outcome, any other status and any
transport fault returns `None`.  The second component counts the one-unit
rate-limit pauses taken. -/
def make_request {B : Type} : List (HttpOutcome B) → Option B × Nat
  | [] => (none, 0)
  | HttpOutcome.fault :: _ => (none, 0)
  | HttpOutcome.resp status body :: rest =>
    if status = 200 then (some body, 0)
    else if status = 429 then
      let r := make_request rest
      (r.1, r.2 + 1)
    else (none, 0)

/-- An instrument dict as returned by the search endpoint: the code reads
only the `'ticker'` and `'figi'` keys (`figi` may be absent or falsy). -/
structure Instrument where
  ticker : String
  figi : Option String
  name : String
  deriving DecidableEq, Repr

/-- One entry of the `'last_prices'` list: the code reads
`price_data.get('price', 0)`, so the `'price'` key may be absent. -/
structure PriceData where
  price : Option ℚ
  deriving DecidableEq, Repr

/-- The broker responses visible to `get_instrument_by_ticker` and
`get_current_price`: `searchResult` is the list returned by
`search_instrument` (`none` when the HTTP call failed), `lastPrices` is the
`'last_prices'` list of the last-price endpoint (`none` when it failed). -/
structure Env where
  searchResult : Option (List Instrument)
  lastPrices : Option (List PriceData)
  deriving DecidableEq, Repr

/-- `AlfaBroker.get_instrument_by_ticker` (src/brokers/alfa_broker.py lines
115-129).  Returns the resolved instrument, the updated
`self.instruments_cache`, and whether the search endpoint was queried. -/
def get_instrument_by_ticker (cache : List (String × Instrument)) (env : Env)
    (ticker : String) : Option Instrument × List (String × Instrument) × Bool :=
  match dictFind cache ticker with
  | some inst => (some inst, cache, false)
  | none =>
    match env.searchResult with
    | none => (none, cache, true)
    | some instruments =>
      if instruments.isEmpty then (none, cache, true)
      else
        match findFirst (fun i => i.ticker == ticker) instruments with
        | some inst => (some inst, (ticker, inst) :: cache, true)
        | none => (none, cache, true)

/-- `AlfaBroker.get_current_price` (src/brokers/alfa_broker.py lines
131-154).  Returns the price (`none` = Unavailable) and the updated cache. -/
def get_current_price (cache : List (String × Instrument)) (env : Env)
    (ticker : String) : Option ℚ × List (String × Instrument) :=
  let r := get_instrument_by_ticker cache env ticker
  match r.1 with
  | none => (none, r.2.1)
  | some inst =>
    match inst.figi with
    | none => (none, r.2.1)
    | some figi =>
      if figi = "" then (none, r.2.1)
      else
        match env.lastPrices with
        | none => (none, r.2.1)
        | some last_prices =>
          match last_prices with
          | [] => (none, r.2.1)
          | price_data :: _ => (some (price_data.price.getD 0), r.2.1)

end AlfaBroker

namespace AlfaTradingBot

/-- One entry of the broker portfolio's `'positions'` list: the bot reads
`position.get('ticker')` and `int(position.get('balance', 0))`. -/
structure PortfolioPos where
  ticker : String
  balance : Option ℚ
  deriving DecidableEq, Repr

/-- The order-placement response dict; the bot reads `order_id`. -/
structure OrderResp where
  order_id : Option String
  deriving DecidableEq, Repr

/-- The broker responses a single `_buy_signal`/`_sell_signal` call can
observe: `portfolio` from `broker.get_portfolio()`, `balance` from
`broker.get_balance()` (an independent HTTP round trip), and `orderResult`
from `broker.buy_market`/`broker.sell_market` (`none` = rejected). -/
structure Env where
  portfolio : Option (List PortfolioPos)
  balance : Option ℚ
  orderResult : Option OrderResp
  deriving DecidableEq, Repr

/-- One entry of `self.trade_history` in `src/trading/alfa_trading_bot.py`. -/
structure Trade where
  action : String
  symbol : String
  quantity : ℤ
  price : ℚ
  expected_change : ℚ
  order_id : Option String
  deriving DecidableEq, Repr

/-- The mutable state of `AlfaTradingBot`: `self.positions` and
`self.trade_history` (the balance lives at the broker). -/
structure State where
  positions : List (String × ℤ)
  trade_history : List Trade
  deriving DecidableEq, Repr

/-- Direction of a market order passed to `broker.place_market_order`. -/
inductive Direction where
  | BUY
  | SELL
  deriving DecidableEq, Repr

/-- The direction string transmitted in the order payload. -/
def directionString : Direction → String
  | Direction.BUY => "BUY"
  | Direction.SELL => "SELL"

/-- A market order as submitted to the broker by the bot. -/
structure SubmittedOrder where
  direction : Direction
  symbol : String
  quantity : ℤ
  deriving DecidableEq, Repr

/-- The position-scanning loop shared by `_buy_signal` and `_sell_signal`:
take the first portfolio entry whose ticker matches, read
`int(position.get('balance', 0))`, default 0 (also when the portfolio call
failed). -/
def currentPosition (env : Env) (symbol : String) : ℤ :=
  match env.portfolio with
  | none => 0
  | some positions =>
    match findFirst (fun p => p.ticker == symbol) positions with
    | some p => pyInt (p.balance.getD 0)
    | none => 0

/-- `AlfaTradingBot._buy_signal` (src/trading/alfa_trading_bot.py lines
182-231).  Returns the new state and the order submitted to the broker, if
any.  Note `if not balance:` treats a zero balance like a missing one. -/
def buy_signal_core (st : State) (env : Env) (symbol : String)
    (max_position_size current_price expected_change : ℚ) :
    State × Option SubmittedOrder :=
  let current_position := currentPosition env symbol
  if 0 < current_position then (st, none)
  else
    match env.balance with
    | none => (st, none)
    | some balance =>
      if balance = 0 then (st, none)
      else
        let max_investment := balance * max_position_size
        let quantity := pyInt (max_investment / current_price)
        if 0 < quantity then
          let order : SubmittedOrder :=
            { direction := Direction.BUY, symbol := symbol, quantity := quantity }
          match env.orderResult with
          | some res =>
            ({ positions := posSet st.positions symbol (posGet st.positions symbol + quantity)
               trade_history := st.trade_history ++
                 [{ action := "BUY", symbol := symbol, quantity := quantity,
                    price := current_price, expected_change := expected_change,
                    order_id := res.order_id }] }, some order)
          | none => (st, some order)
        else (st, none)

/-- `AlfaTradingBot._sell_signal` (src/trading/alfa_trading_bot.py lines
233-270).  Sells the entire position reported by the broker portfolio. -/
def sell_signal_core (st : State) (env : Env) (symbol : String)
    (current_price expected_change : ℚ) : State × Option SubmittedOrder :=
  let current_position := currentPosition env symbol
  if current_position ≤ 0 then (st, none)
  else
    let order : SubmittedOrder :=
      { direction := Direction.SELL, symbol := symbol, quantity := current_position }
    match env.orderResult with
    | some res =>
      ({ positions := posSet st.positions symbol 0
         trade_history := st.trade_history ++
           [{ action := "SELL", symbol := symbol, quantity := current_position,
              price := current_price, expected_change := expected_change,
              order_id := res.order_id }] }, some order)
    | none => (st, some order)

/-- `AlfaTradingBot._make_trading_decision` (src/trading/alfa_trading_bot.py
lines 165-180), returning the new state and the submitted order, if any. -/
def make_trading_decision_core (st : State) (env : Env) (symbol : String)
    (max_position_size prediction_threshold current_price predicted_price : ℚ) :
    State × Option SubmittedOrder :=
  let price_change_percent := (predicted_price - current_price) / current_price
  if prediction_threshold < price_change_percent then
    buy_signal_core st env symbol max_position_size current_price price_change_percent
  else if price_change_percent < -prediction_threshold then
    sell_signal_core st env symbol current_price price_change_percent
  else (st, none)

/-- The state after one `_make_trading_decision` call. -/
def make_trading_decision (st : State) (env : Env) (symbol : String)
    (max_position_size prediction_threshold current_price predicted_price : ℚ) :
    State :=
  (make_trading_decision_core st env symbol max_position_size
    prediction_threshold current_price predicted_price).1

/-- The trading settings fixed at bot construction: `self.symbol`,
`self.max_position_size`, `self.prediction_threshold` (always `0.02`). -/
structure Config where
  symbol : String
  max_position_size : ℚ
  prediction_threshold : ℚ
  deriving DecidableEq, Repr

/-- The inputs of one trading cycle that reach `_make_trading_decision`:
the broker responses and the current/predicted prices. -/
structure CycleInput where
  env : Env
  current_price : ℚ
  predicted_price : ℚ
  deriving DecidableEq, Repr

/-- One decision step of the trading loop. -/
def step (cfg : Config) (st : State) (i : CycleInput) : State :=
  make_trading_decision st i.env cfg.symbol cfg.max_position_size
    cfg.prediction_threshold i.current_price i.predicted_price

/-- A run of consecutive decision steps. -/
def run (cfg : Config) (st : State) : List CycleInput → State
  | [] => st
  | i :: rest => run cfg (step cfg st i) rest

/-- Whether a cycle both submitted an order to the broker and had it
confirmed (a non-`None` result from `buy_market`/`sell_market`). -/
def orderConfirmed (cfg : Config) (st : State) (i : CycleInput) : Bool :=
  (make_trading_decision_core st i.env cfg.symbol cfg.max_position_size
      cfg.prediction_threshold i.current_price i.predicted_price).2.isSome
    && i.env.orderResult.isSome

/-- Number of confirmed orders along a run. -/
def confirmedCount (cfg : Config) (st : State) : List CycleInput → Nat
  | [] => 0
  | i :: rest =>
    (if orderConfirmed cfg st i then 1 else 0) + confirmedCount cfg (step cfg st i) rest

end AlfaTradingBot

namespace Startup

/-- Whether the trading loop (`while self.is_running: ...`) was ever
entered during a run of the process. -/
inductive RunPhase where
  | stoppedBeforeLoop
  | loopEntered
  deriving DecidableEq, Repr

/-- Control flow of `AlfaTradingBot.run` (src/trading/alfa_trading_bot.py
lines 38-65): a failed broker-connection check or a failed model training
logs an error and returns without entering the loop; neither raises. -/
def alfa_run_phase (broker_connected model_trained : Bool) : RunPhase :=
  if broker_connected = false then RunPhase.stoppedBeforeLoop
  else if model_trained = false then RunPhase.stoppedBeforeLoop
  else RunPhase.loopEntered

/-- Control flow of `TradingBot.run` (src/trading/bot.py lines 33-54). -/
def bot_run_phase (model_trained : Bool) : RunPhase :=
  if model_trained = false then RunPhase.stoppedBeforeLoop
  else RunPhase.loopEntered

/-- Control flow of `main` (src/main.py lines 22-57): the `try` block wraps
component construction and `bot.run()`; an exception there exits with code
1, and `bot.run()` returning normally lets `main` return, so the process
exits with code 0.  `startup_ok` models the component construction not
raising.  Result: (exit code, whether the trading loop was entered). -/
def main_exit (startup_ok use_alfa broker_connected model_trained : Bool) :
    Nat × RunPhase :=
  if startup_ok = false then (1, RunPhase.stoppedBeforeLoop)
  else
    (0, if use_alfa then alfa_run_phase broker_connected model_trained
        else bot_run_phase model_trained)

end Startup

section Helpers

/-- Truncation toward zero agrees with the floor on nonnegative inputs. -/
theorem pyInt_of_nonneg {q : ℚ} (h : 0 ≤ q) : pyInt q = ⌊q⌋ := if_pos h

/-- A positive truncation can only come from a nonnegative input, where the
truncation is the floor. -/
theorem pyInt_pos {q : ℚ} (h : 0 < pyInt q) : 0 ≤ q ∧ pyInt q = ⌊q⌋ := by
  by_cases hq : 0 ≤ q
  · exact ⟨hq, if_pos hq⟩
  · exfalso
    have hq' : q ≤ 0 := le_of_not_le hq
    have hceil : ⌈q⌉ ≤ 0 := Int.ceil_le.mpr (by exact_mod_cast hq')
    have heq : pyInt q = ⌈q⌉ := if_neg hq
    omega

/-- The cost of `floor (inv / price)` units at `price` never exceeds `inv`. -/
theorem floor_units_cost_le {inv price : ℚ} (hp : 0 < price) :
    (⌊inv / price⌋ : ℚ) * price ≤ inv := by
  have h1 : ((⌊inv / price⌋ : ℤ) : ℚ) ≤ inv / price := Int.floor_le _
  have h2 := mul_le_mul_of_nonneg_right h1 (le_of_lt hp)
  rwa [div_mul_cancel₀ _ (ne_of_gt hp)] at h2

/-- Updating a key makes lookup on that key return the new value. -/
theorem dictFind_posSet_self {α : Type} (ps : List (String × α)) (s : String)
    (v : α) : dictFind (posSet ps s v) s = some v := by
  induction ps with
  | nil => simp [posSet, dictFind]
  | cons kv rest ih =>
    obtain ⟨k, w⟩ := kv
    by_cases hk : k = s
    · simp [posSet, dictFind, hk]
    · simp [posSet, dictFind, hk, ih]

/-- Updating a key makes `posGet` on that key return the new value. -/
theorem posGet_posSet_self (ps : List (String × ℤ)) (s : String) (v : ℤ) :
    posGet (posSet ps s v) s = v := by
  rw [posGet, dictFind_posSet_self]
  rfl

end Helpers

section Claims

attribute [local semireducible] Rat.mul Rat.sub Rat.add Rat.inv

/-- C3: for every pair (currentPrice, predictedPrice) whose expected change
`(predictedPrice - currentPrice) / currentPrice` lies strictly between
`-threshold` and `+threshold`, the decision step of both engines issues no
order and leaves the balance, the position quantities and the trade history
unchanged. -/
theorem C3_hold_band (st : TradingBot.State) (ast : AlfaTradingBot.State)
    (env : AlfaTradingBot.Env) (symbol : String) (mps thr current predicted : ℚ)
    (h1 : -thr < (predicted - current) / current)
    (h2 : (predicted - current) / current < thr) :
    TradingBot.make_trading_decision st symbol mps thr current predicted = st ∧
    AlfaTradingBot.make_trading_decision_core ast env symbol mps thr current
        predicted = (ast, none) := by
  constructor
  · simp only [TradingBot.make_trading_decision]
    rw [if_neg (not_lt.mpr (le_of_lt h2)), if_neg (not_lt.mpr (le_of_lt h1))]
  · simp only [AlfaTradingBot.make_trading_decision_core]
    rw [if_neg (not_lt.mpr (le_of_lt h2)), if_neg (not_lt.mpr (le_of_lt h1))]

/-- Witness for C3 at the spec scenario: current 100, predicted 101,
threshold 0.02, expected change 0.01 — a hold on both engines. -/
theorem C3_hold_band_witness :
    TradingBot.make_trading_decision ⟨10000, [], []⟩ "AAPL" (1/10) (1/50) 100 101
      = ⟨10000, [], []⟩ ∧
    AlfaTradingBot.make_trading_decision_core ⟨[], []⟩
        ⟨some [], some 10000, none⟩ "SBER" (1/10) (1/50) 100 101
      = (⟨[], []⟩, none) :=
  ⟨(C3_hold_band ⟨10000, [], []⟩ ⟨[], []⟩ ⟨some [], some 10000, none⟩ "AAPL"
      (1/10) (1/50) 100 101 (by decide) (by decide)).1,
   (C3_hold_band ⟨10000, [], []⟩ ⟨[], []⟩ ⟨some [], some 10000, none⟩ "SBER"
      (1/10) (1/50) 100 101 (by decide) (by decide)).2⟩

/-- C5: a 429 response triggers exactly one one-unit pause followed by a
retry of the identical request, recursing with no depth bound while the
broker keeps rate-limiting; any other non-200 status and any transport
fault returns None with no retry and no pause. -/
theorem C5_rate_limit_retry {B : Type} (s : Nat) (b : B)
    (rest : List (AlfaBroker.HttpOutcome B)) (h200 : s ≠ 200) (h429 : s ≠ 429) :
    AlfaBroker.make_request (AlfaBroker.HttpOutcome.resp 429 b :: rest) =
      ((AlfaBroker.make_request rest).1, (AlfaBroker.make_request rest).2 + 1) ∧
    AlfaBroker.make_request (AlfaBroker.HttpOutcome.resp s b :: rest) = (none, 0) ∧
    AlfaBroker.make_request (AlfaBroker.HttpOutcome.fault :: rest) = (none, 0) ∧
    (∀ k : Nat,
      AlfaBroker.make_request
          (List.replicate k (AlfaBroker.HttpOutcome.resp 429 b) ++ rest) =
        ((AlfaBroker.make_request rest).1, (AlfaBroker.make_request rest).2 + k)) := by
  refine ⟨by simp [AlfaBroker.make_request], ?_, rfl, ?_⟩
  · simp [AlfaBroker.make_request, h200, h429]
  · intro k
    induction k with
    | zero => simp
    | succ n ih =>
      rw [List.replicate_succ, List.cons_append]
      simp only [AlfaBroker.make_request, ih]
      norm_num
      omega

/-- Witness for C5: a 429 followed by a 500 pauses once and fails; a bare
500 fails with no pause. -/
theorem C5_rate_limit_retry_witness :
    AlfaBroker.make_request
        [AlfaBroker.HttpOutcome.resp 429 (0 : Nat),
         AlfaBroker.HttpOutcome.resp 500 0] = (none, 1) := by
  have h1 := (C5_rate_limit_retry 500 (0 : Nat)
    [AlfaBroker.HttpOutcome.resp 500 0] (by decide) (by decide)).1
  have h2 := (C5_rate_limit_retry 500 (0 : Nat) [] (by decide) (by decide)).2.1
  rw [h1, h2]

/-- C10: the request layer hands back a parsed body only when the status
code is exactly 200 (the body returned is the one of the first non-429
response, and that response has status 200); every status other than 200,
except 429, yields None — including other 2xx codes such as 201. -/
theorem C10_status_200_only {B : Type} (l : List (AlfaBroker.HttpOutcome B))
    (b b2 : B) (s : Nat) (rest : List (AlfaBroker.HttpOutcome B))
    (h200 : s ≠ 200) (h429 : s ≠ 429) :
    ((AlfaBroker.make_request l).1 = some b →
      l.get? (AlfaBroker.make_request l).2 =
        some (AlfaBroker.HttpOutcome.resp 200 b)) ∧
    AlfaBroker.make_request (AlfaBroker.HttpOutcome.resp s b2 :: rest) = (none, 0) ∧
    AlfaBroker.make_request (AlfaBroker.HttpOutcome.resp 201 b2 :: rest) = (none, 0) := by
  refine ⟨?_, by simp [AlfaBroker.make_request, h200, h429], by simp [AlfaBroker.make_request]⟩
  induction l with
  | nil => intro h; simp [AlfaBroker.make_request] at h
  | cons hd tl ih =>
    intro h
    cases hd with
    | fault => simp [AlfaBroker.make_request] at h
    | resp status body =>
      by_cases hs : status = 200
      · subst hs
        simp [AlfaBroker.make_request] at h ⊢
        exact h
      · by_cases hs429 : status = 429
        · subst hs429
          simp only [AlfaBroker.make_request, if_neg (by decide : ¬(429 = 200)),
            if_pos rfl] at h ⊢
          exact ih h
        · simp [AlfaBroker.make_request, hs, hs429] at h

/-- Witness for C10: a 201 response yields None. -/
theorem C10_status_200_only_witness :
    AlfaBroker.make_request [AlfaBroker.HttpOutcome.resp 201 (5 : Nat)] = (none, 0) :=
  (C10_status_200_only [] (0 : Nat) 5 201 [] (by decide) (by decide)).2.2


/-- A rejected order (a `None` result from `buy_market`/`sell_market`)
leaves the bot state unchanged, whatever the decision was. -/
theorem AlfaTradingBot.core_fst_of_rejected (st : AlfaTradingBot.State)
    (env : AlfaTradingBot.Env) (symbol : String) (mps thr c p : ℚ)
    (h : env.orderResult = none) :
    (AlfaTradingBot.make_trading_decision_core st env symbol mps thr c p).1 = st := by
  simp only [AlfaTradingBot.make_trading_decision_core,
    AlfaTradingBot.buy_signal_core, AlfaTradingBot.sell_signal_core, h]
  repeat' split
  all_goals rfl

/-- C9: if a decision cycle's order attempt was rejected, the state is left
unchanged, and re-running the decision step with the identical inputs and
the same external responses produces the same decision (same submitted
order) and again leaves the state unchanged. -/
theorem C9_rejected_idempotent (ast : AlfaTradingBot.State)
    (env : AlfaTradingBot.Env) (symbol : String) (mps thr c p : ℚ)
    (h : env.orderResult = none) :
    AlfaTradingBot.make_trading_decision ast env symbol mps thr c p = ast ∧
    AlfaTradingBot.make_trading_decision_core
        (AlfaTradingBot.make_trading_decision ast env symbol mps thr c p)
        env symbol mps thr c p =
      AlfaTradingBot.make_trading_decision_core ast env symbol mps thr c p := by
  have h1 : AlfaTradingBot.make_trading_decision ast env symbol mps thr c p = ast :=
    AlfaTradingBot.core_fst_of_rejected ast env symbol mps thr c p h
  exact ⟨h1, by rw [h1]⟩

/-- Witness for C9: a rejected BUY attempt (env has balance but the order
call returned None) leaves the empty state unchanged and replays to the
same decision. -/
theorem C9_rejected_idempotent_witness :
    AlfaTradingBot.make_trading_decision ⟨[], []⟩
      ⟨some [], some 10000, none⟩ "SBER" (1/10) (1/50) 100 103 = ⟨[], []⟩ :=
  (C9_rejected_idempotent ⟨[], []⟩ ⟨some [], some 10000, none⟩ "SBER"
    (1/10) (1/50) 100 103 rfl).1

/-- C7 counterexample: with components constructed fine, the Alfa bot
selected, the broker-connection check failing and training fine, the loop
is never entered but the process exits with code 0 — not the non-zero exit
code the claim requires for a startup failure. -/
theorem C7_exit_code_cex :
    Startup.main_exit true true false true = (0, Startup.RunPhase.stoppedBeforeLoop) := by
  decide

/-- C7 amended: on a startup failure (broker unreachable or model training
failure) the trading loop is never entered, but `run` returns normally and
the process exits with code 0; the non-zero exit code (1) occurs only when
component construction raises; the loop is entered exactly when
construction succeeds, training succeeds and (in Alfa mode) the broker
connects. -/
theorem C7_amended_startup (u bc t : Bool) :
    Startup.main_exit false u bc t = (1, Startup.RunPhase.stoppedBeforeLoop) ∧
    (bc = false ∨ t = false →
      Startup.main_exit true true bc t = (0, Startup.RunPhase.stoppedBeforeLoop)) ∧
    (t = false →
      Startup.main_exit true false bc t = (0, Startup.RunPhase.stoppedBeforeLoop)) ∧
    ((Startup.main_exit true u bc t).2 = Startup.RunPhase.loopEntered ↔
      ((u = true → bc = true) ∧ t = true)) := by
  cases u <;> cases bc <;> cases t <;> decide

/-- Witness for C7 amended: broker unreachable in Alfa mode exits 0 without
entering the loop; training failure in demo mode likewise. -/
theorem C7_amended_startup_witness :
    Startup.main_exit true true false true
      = (0, Startup.RunPhase.stoppedBeforeLoop) ∧
    Startup.main_exit true false false false
      = (0, Startup.RunPhase.stoppedBeforeLoop) :=
  ⟨(C7_amended_startup true false true).2.1 (Or.inl rfl),
   (C7_amended_startup false false false).2.2.1 rfl⟩


/-- C8: `get_instrument_by_ticker` performs a case-sensitive exact-ticker
search and returns the first search hit whose ticker equals the query; a
first successful lookup inserts the instrument into the cache keyed by the
ticker, every later call with that ticker returns the cached instrument
without searching, and no cache entry is ever invalidated, replaced or
evicted. -/
theorem C8_instrument_cache (cache : List (String × AlfaBroker.Instrument))
    (env env2 : AlfaBroker.Env) (ticker : String) :
    (∀ inst, dictFind cache ticker = some inst →
      AlfaBroker.get_instrument_by_ticker cache env ticker =
        (some inst, cache, false)) ∧
    (∀ instruments inst, dictFind cache ticker = none →
      env.searchResult = some instruments →
      findFirst (fun i => i.ticker == ticker) instruments = some inst →
      AlfaBroker.get_instrument_by_ticker cache env ticker =
        (some inst, (ticker, inst) :: cache, true)) ∧
    (∀ inst cache2,
      AlfaBroker.get_instrument_by_ticker cache env ticker =
        (some inst, cache2, true) →
      AlfaBroker.get_instrument_by_ticker cache2 env2 ticker =
        (some inst, cache2, false)) ∧
    (∀ k v, dictFind cache k = some v →
      dictFind (AlfaBroker.get_instrument_by_ticker cache env ticker).2.1 k =
        some v) := by
  refine ⟨?_, ?_, ?_, ?_⟩
  · intro inst h
    simp [AlfaBroker.get_instrument_by_ticker, h]
  · intro instruments inst hc hs hf
    cases instruments with
    | nil => simp [findFirst] at hf
    | cons i rest =>
      simp [AlfaBroker.get_instrument_by_ticker, hc, hs, hf]
  · intro inst cache2 h
    unfold AlfaBroker.get_instrument_by_ticker at h
    split at h
    · simp_all
    · split at h
      · simp_all
      · split at h
        · simp_all
        · split at h
          · rename_i hmiss hsr hne i hfind
            have h1 : inst = i ∧ cache2 = (ticker, i) :: cache := by
              constructor <;> · injection h with h1 h2; simp_all
            obtain ⟨rfl, rfl⟩ := h1
            simp [AlfaBroker.get_instrument_by_ticker, dictFind]
          · simp_all
  · intro k v hv
    by_cases hk : ticker = k
    · subst hk
      unfold AlfaBroker.get_instrument_by_ticker
      rw [hv]
      exact hv
    · unfold AlfaBroker.get_instrument_by_ticker
      split
      · exact hv
      · split
        · exact hv
        · split
          · exact hv
          · split
            · simp [dictFind, hk, hv]
            · exact hv

/-- Witness for C8: with two search hits differing only in case, the query
"SBER" skips the lower-case ticker, caches the exact match, and a second
call (even with no search responses available) answers from the cache. -/
theorem C8_instrument_cache_witness :
    AlfaBroker.get_instrument_by_ticker [] ⟨some [⟨"sber", some "F1", "lower"⟩,
        ⟨"SBER", some "F2", "upper"⟩], none⟩ "SBER" =
      (some ⟨"SBER", some "F2", "upper"⟩,
        [("SBER", ⟨"SBER", some "F2", "upper"⟩)], true) ∧
    AlfaBroker.get_instrument_by_ticker
        [("SBER", ⟨"SBER", some "F2", "upper"⟩)] ⟨none, none⟩ "SBER" =
      (some ⟨"SBER", some "F2", "upper"⟩,
        [("SBER", ⟨"SBER", some "F2", "upper"⟩)], false) := by
  have h := C8_instrument_cache [] ⟨some [⟨"sber", some "F1", "lower"⟩,
    ⟨"SBER", some "F2", "upper"⟩], none⟩ ⟨none, none⟩ "SBER"
  have h1 := h.2.1 [⟨"sber", some "F1", "lower"⟩, ⟨"SBER", some "F2", "upper"⟩]
    ⟨"SBER", some "F2", "upper"⟩ rfl rfl (by decide)
  exact ⟨h1, h.2.2.1 ⟨"SBER", some "F2", "upper"⟩
    [("SBER", ⟨"SBER", some "F2", "upper"⟩)] h1⟩


/-- C2: when the expected change is below -threshold and the position
quantity is positive, the engine submits a SELL for the entire held
quantity; after a confirmed SELL the position quantity is exactly 0 (never
negative); with position quantity ≤ 0 no sell order is issued and the state
is unchanged.  Stated for the simulated bot's `_sell_signal` and the Alfa
bot's `_sell_signal` (where the held quantity is the one reported by the
broker portfolio). -/
theorem C2_sell_full_liquidation (st : TradingBot.State)
    (ast : AlfaTradingBot.State) (env : AlfaTradingBot.Env) (symbol : String)
    (price change : ℚ) :
    (posGet st.positions symbol ≤ 0 →
      TradingBot.sell_signal st symbol price change = st) ∧
    (∀ q : ℤ, dictFind st.positions symbol = some q → 0 < q →
      TradingBot.sell_signal st symbol price change =
        { balance := st.balance + (q : ℚ) * price
          positions := posSet st.positions symbol 0
          trade_history := st.trade_history ++
            [{ action := "SELL", symbol := symbol, quantity := q, price := price,
               cost := none, revenue := some ((q : ℚ) * price),
               expected_change := change }] } ∧
      posGet (TradingBot.sell_signal st symbol price change).positions symbol = 0) ∧
    (AlfaTradingBot.currentPosition env symbol ≤ 0 →
      AlfaTradingBot.sell_signal_core ast env symbol price change = (ast, none)) ∧
    (0 < AlfaTradingBot.currentPosition env symbol →
      (AlfaTradingBot.sell_signal_core ast env symbol price change).2 =
        some { direction := AlfaTradingBot.Direction.SELL, symbol := symbol,
               quantity := AlfaTradingBot.currentPosition env symbol } ∧
      (∀ r, env.orderResult = some r →
        (AlfaTradingBot.sell_signal_core ast env symbol price change).1 =
          { positions := posSet ast.positions symbol 0
            trade_history := ast.trade_history ++
              [{ action := "SELL", symbol := symbol,
                 quantity := AlfaTradingBot.currentPosition env symbol,
                 price := price, expected_change := change,
                 order_id := r.order_id }] } ∧
        posGet (AlfaTradingBot.sell_signal_core ast env symbol price change).1.positions
          symbol = 0) ∧
      (env.orderResult = none →
        AlfaTradingBot.sell_signal_core ast env symbol price change =
          (ast, some { direction := AlfaTradingBot.Direction.SELL,
                       symbol := symbol,
                       quantity := AlfaTradingBot.currentPosition env symbol }))) := by
  refine ⟨?_, ?_, ?_, ?_⟩
  · intro h
    unfold TradingBot.sell_signal
    split
    · rfl
    · rename_i q hq
      rw [if_pos]
      simp only [posGet, hq, Option.getD_some] at h
      exact h
  · intro q hq hq0
    have hmain : TradingBot.sell_signal st symbol price change =
        { balance := st.balance + (q : ℚ) * price
          positions := posSet st.positions symbol 0
          trade_history := st.trade_history ++
            [{ action := "SELL", symbol := symbol, quantity := q, price := price,
               cost := none, revenue := some ((q : ℚ) * price),
               expected_change := change }] } := by
      unfold TradingBot.sell_signal
      simp only [hq]
      rw [if_neg (not_le.mpr hq0)]
    refine ⟨hmain, ?_⟩
    rw [hmain]
    exact posGet_posSet_self _ _ _
  · intro h
    unfold AlfaTradingBot.sell_signal_core
    rw [if_pos h]
  · intro h
    rw [AlfaTradingBot.sell_signal_core, if_neg (not_le.mpr h)]
    refine ⟨?_, ?_, ?_⟩
    · cases henv : env.orderResult <;> simp
    · intro r hr
      rw [hr]
      exact ⟨rfl, by simp [posGet_posSet_self]⟩
    · intro hr
      rw [hr]

/-- Witness for C2 at the spec scenario: holding 10 shares at price 90, the
simulated bot sells all 10 (position becomes 0, balance +900) and the Alfa
bot submits a SELL of the full broker-reported quantity 10. -/
theorem C2_sell_full_liquidation_witness :
    TradingBot.sell_signal ⟨1000, [("AAPL", 10)], []⟩ "AAPL" 90 (-(11/100)) =
      { balance := 1900, positions := [("AAPL", 0)],
        trade_history := [{ action := "SELL", symbol := "AAPL", quantity := 10,
                            price := 90, cost := none, revenue := some 900,
                            expected_change := -(11/100) }] } ∧
    (AlfaTradingBot.sell_signal_core ⟨[], []⟩
        ⟨some [⟨"AAPL", some 10⟩], some 0, some ⟨some "oid"⟩⟩ "AAPL" 90
        (-(11/100))).2 =
      some ⟨AlfaTradingBot.Direction.SELL, "AAPL", 10⟩ := by
  have h := C2_sell_full_liquidation ⟨1000, [("AAPL", 10)], []⟩ ⟨[], []⟩
    ⟨some [⟨"AAPL", some 10⟩], some 0, some ⟨some "oid"⟩⟩ "AAPL" 90 (-(11/100))
  constructor
  · have h2 := (h.2.1 10 rfl (by decide)).1
    rw [h2]
    decide
  · have h4 := (h.2.2.2 (by decide)).1
    rw [h4]
    decide

/-- C1: with the expected change above the threshold, a BUY is skipped when
a position is already held; otherwise the engine computes
`investment = balance * maxPositionFraction` and
`quantity = floor (investment / currentPrice)`, submits a BUY only when
`quantity ≥ 1`, the purchased quantity costs at most the investment, and in
the simulated variant the balance after deducting the cost is never
negative (the code additionally checks `balance ≥ quantity * price`). -/
theorem C1_buy_position_sizing (st : TradingBot.State)
    (ast : AlfaTradingBot.State) (env : AlfaTradingBot.Env) (symbol : String)
    (mps price change : ℚ) (hp : 0 < price) (hb : 0 ≤ st.balance) (hm : 0 ≤ mps) :
    (TradingBot.holdsPosition st.positions symbol = true →
      TradingBot.buy_signal st symbol mps price change = st) ∧
    ((⌊st.balance * mps / price⌋ : ℚ) * price ≤ st.balance * mps) ∧
    (TradingBot.holdsPosition st.positions symbol = false →
      1 ≤ ⌊st.balance * mps / price⌋ →
      (⌊st.balance * mps / price⌋ : ℚ) * price ≤ st.balance →
      TradingBot.buy_signal st symbol mps price change =
        { balance := st.balance - (⌊st.balance * mps / price⌋ : ℚ) * price
          positions := posSet st.positions symbol
            (posGet st.positions symbol + ⌊st.balance * mps / price⌋)
          trade_history := st.trade_history ++
            [{ action := "BUY", symbol := symbol,
               quantity := ⌊st.balance * mps / price⌋, price := price,
               cost := some ((⌊st.balance * mps / price⌋ : ℚ) * price),
               revenue := none, expected_change := change }] } ∧
      0 ≤ st.balance - (⌊st.balance * mps / price⌋ : ℚ) * price) ∧
    ((TradingBot.buy_signal st symbol mps price change).trade_history ≠
        st.trade_history → 1 ≤ ⌊st.balance * mps / price⌋) ∧
    (0 < AlfaTradingBot.currentPosition env symbol →
      AlfaTradingBot.buy_signal_core ast env symbol mps price change =
        (ast, none)) ∧
    (∀ o, (AlfaTradingBot.buy_signal_core ast env symbol mps price change).2 =
        some o →
      o.direction = AlfaTradingBot.Direction.BUY ∧ 1 ≤ o.quantity ∧
      ∃ bb, env.balance = some bb ∧ o.quantity = ⌊bb * mps / price⌋ ∧
        (o.quantity : ℚ) * price ≤ bb * mps) := by
  have hfl : pyInt (st.balance * mps / price) = ⌊st.balance * mps / price⌋ :=
    pyInt_of_nonneg (div_nonneg (mul_nonneg hb hm) (le_of_lt hp))
  refine ⟨?_, floor_units_cost_le hp, ?_, ?_, ?_, ?_⟩
  · intro h
    unfold TradingBot.buy_signal
    rw [if_pos h]
  · intro h0 h1 h2
    have hq : (0 : ℤ) < pyInt (st.balance * mps / price) := by omega
    have hqc : ((pyInt (st.balance * mps / price) : ℤ) : ℚ) * price ≤ st.balance := by
      rw [hfl]; exact h2
    constructor
    · unfold TradingBot.buy_signal
      rw [h0]
      simp only [Bool.false_eq_true, if_false]
      rw [if_pos ⟨hq, hqc⟩, hfl]
    · rw [hfl] at hqc
      exact sub_nonneg.mpr hqc
  · intro hne
    by_contra hlt
    apply hne
    have hq0 : ⌊st.balance * mps / price⌋ ≤ 0 := by omega
    cases hh : TradingBot.holdsPosition st.positions symbol with
    | true =>
      rw [TradingBot.buy_signal, if_pos hh]
    | false =>
      rw [TradingBot.buy_signal, hh]
      simp only [Bool.false_eq_true, if_false]
      rw [if_neg]
      intro hcontra
      rw [hfl] at hcontra
      omega
  · intro h
    unfold AlfaTradingBot.buy_signal_core
    rw [if_pos h]
  · intro o ho
    cases hbal : env.balance with
    | none =>
      simp only [AlfaTradingBot.buy_signal_core, hbal] at ho
      split at ho
      · exact absurd ho (by simp)
      · exact absurd ho (by simp)
    | some bb =>
      simp only [AlfaTradingBot.buy_signal_core, hbal] at ho
      split at ho
      · exact absurd ho (by simp)
      · by_cases hb0 : bb = 0
        · rw [if_pos hb0] at ho
          exact absurd ho (by simp)
        · rw [if_neg hb0] at ho
          by_cases hpq : 0 < pyInt (bb * mps / price)
          · rw [if_pos hpq] at ho
            have ho2 : o = ⟨AlfaTradingBot.Direction.BUY, symbol,
                pyInt (bb * mps / price)⟩ := by
              cases hor : env.orderResult with
              | none =>
                simp only [hor] at ho
                injection ho with h
                exact h.symm
              | some r =>
                simp only [hor] at ho
                injection ho with h
                exact h.symm
            obtain ⟨hnn, hflb⟩ := pyInt_pos hpq
            subst ho2
            refine ⟨rfl, by simpa using hpq, bb, rfl, by simpa using hflb, ?_⟩
            show (((pyInt (bb * mps / price) : ℤ)) : ℚ) * price ≤ bb * mps
            rw [hflb]
            exact floor_units_cost_le hp
          · rw [if_neg hpq] at ho
            exact absurd ho (by simp)

/-- Witness for C1 at the spec scenario: balance 10000, maxPositionFraction
0.1, price 100 — investment 1000, quantity floor(1000/100) = 10, cost 1000,
balance 9000 afterwards. -/
theorem C1_buy_position_sizing_witness :
    TradingBot.buy_signal ⟨10000, [], []⟩ "AAPL" (1/10) 100 (3/100) =
      { balance := 9000, positions := [("AAPL", 10)],
        trade_history := [{ action := "BUY", symbol := "AAPL", quantity := 10,
                            price := 100, cost := some 1000, revenue := none,
                            expected_change := 3/100 }] } := by
  have h := (C1_buy_position_sizing ⟨10000, [], []⟩ ⟨[], []⟩ ⟨none, none, none⟩
    "AAPL" (1/10) 100 (3/100) (by decide) (by decide) (by decide)).2.2.1
    rfl (by decide) (by decide)
  rw [h.1]
  decide

/-- C6 counterexample: with the instrument resolved and the last-price
endpoint returning one entry whose price field is 0, `get_current_price`
returns the price 0 — a returned price that is not a positive decimal,
contradicting the claim that every returned price is positive. -/
theorem C6_price_positivity_cex :
    (AlfaBroker.get_current_price []
        ⟨some [⟨"SBER", some "BBG004730N88", "Sberbank"⟩],
         some [⟨some 0⟩]⟩ "SBER").1 = some 0 ∧ ¬ (0 : ℚ) < 0 :=
  ⟨by decide, lt_irrefl 0⟩

/-- C6 amended: `get_current_price` returns Unavailable (None) without
raising whenever the instrument cannot be resolved, the last-price endpoint
returns no price entries, or the HTTP call fails; whenever it does return a
price, that price is the `price` field of the first last-price entry
(defaulting to 0 when the field is absent) — the code does not guarantee
that it is positive. -/
theorem C6_amended_price_fetch (cache : List (String × AlfaBroker.Instrument))
    (env : AlfaBroker.Env) (ticker : String) :
    ((AlfaBroker.get_instrument_by_ticker cache env ticker).1 = none →
      (AlfaBroker.get_current_price cache env ticker).1 = none) ∧
    (env.lastPrices = none →
      (AlfaBroker.get_current_price cache env ticker).1 = none) ∧
    (env.lastPrices = some [] →
      (AlfaBroker.get_current_price cache env ticker).1 = none) ∧
    (∀ p : ℚ, (AlfaBroker.get_current_price cache env ticker).1 = some p →
      ∃ pd rest, env.lastPrices = some (pd :: rest) ∧
        p = pd.price.getD 0) := by
  refine ⟨?_, ?_, ?_, ?_⟩
  · intro h
    simp only [AlfaBroker.get_current_price, h]
  · intro h
    simp only [AlfaBroker.get_current_price, h]
    repeat' split
    all_goals rfl
  · intro h
    simp only [AlfaBroker.get_current_price, h]
    repeat' split
    all_goals rfl
  · intro p hp
    simp only [AlfaBroker.get_current_price] at hp
    split at hp
    · exact absurd hp (by simp)
    · split at hp
      · exact absurd hp (by simp)
      · split at hp
        · exact absurd hp (by simp)
        · split at hp
          · exact absurd hp (by simp)
          · split at hp
            · exact absurd hp (by simp)
            · rename_i hlp
              injection hp with hp
              exact ⟨_, _, hlp, hp.symm⟩

/-- Witness for C6 amended: an unresolvable instrument and an empty
last-price list both produce Unavailable. -/
theorem C6_amended_price_fetch_witness :
    (AlfaBroker.get_current_price [] ⟨none, none⟩ "SBER").1 = none ∧
    (AlfaBroker.get_current_price
        [("SBER", ⟨"SBER", some "F", "S"⟩)] ⟨none, some []⟩ "SBER").1 = none :=
  ⟨(C6_amended_price_fetch [] ⟨none, none⟩ "SBER").1 (by decide),
   (C6_amended_price_fetch [("SBER", ⟨"SBER", some "F", "S"⟩)]
      ⟨none, some []⟩ "SBER").2.2.1 rfl⟩


/-- Case analysis of `_buy_signal`: either nothing happened, or an order
was submitted and rejected leaving the state unchanged, or an order was
submitted and confirmed and exactly its data was recorded. -/
theorem AlfaTradingBot.buy_core_cases (st : AlfaTradingBot.State)
    (env : AlfaTradingBot.Env) (symbol : String) (mps c ch : ℚ) :
    (AlfaTradingBot.buy_signal_core st env symbol mps c ch = (st, none)) ∨
    (∃ o, AlfaTradingBot.buy_signal_core st env symbol mps c ch = (st, some o) ∧
      env.orderResult = none) ∨
    (∃ o r, env.orderResult = some r ∧
      o.direction = AlfaTradingBot.Direction.BUY ∧
      AlfaTradingBot.buy_signal_core st env symbol mps c ch =
        ({ positions := posSet st.positions symbol
             (posGet st.positions symbol + o.quantity)
           trade_history := st.trade_history ++
             [{ action := "BUY", symbol := symbol, quantity := o.quantity,
                price := c, expected_change := ch,
                order_id := r.order_id }] }, some o)) := by
  simp only [AlfaTradingBot.buy_signal_core]
  split
  · exact Or.inl rfl
  · split
    · exact Or.inl rfl
    · rename_i bb hbeq
      split
      · exact Or.inl rfl
      · split
        · split
          · rename_i res heq
            exact Or.inr (Or.inr ⟨⟨AlfaTradingBot.Direction.BUY, symbol,
              pyInt (bb * mps / c)⟩, res, heq, rfl, rfl⟩)
          · rename_i heq
            exact Or.inr (Or.inl ⟨_, rfl, heq⟩)
        · exact Or.inl rfl

/-- Case analysis of `_sell_signal`, as for `buy_core_cases`. -/
theorem AlfaTradingBot.sell_core_cases (st : AlfaTradingBot.State)
    (env : AlfaTradingBot.Env) (symbol : String) (c ch : ℚ) :
    (AlfaTradingBot.sell_signal_core st env symbol c ch = (st, none)) ∨
    (∃ o, AlfaTradingBot.sell_signal_core st env symbol c ch = (st, some o) ∧
      env.orderResult = none) ∨
    (∃ o r, env.orderResult = some r ∧
      o.direction = AlfaTradingBot.Direction.SELL ∧
      AlfaTradingBot.sell_signal_core st env symbol c ch =
        ({ positions := posSet st.positions symbol 0
           trade_history := st.trade_history ++
             [{ action := "SELL", symbol := symbol, quantity := o.quantity,
                price := c, expected_change := ch,
                order_id := r.order_id }] }, some o)) := by
  simp only [AlfaTradingBot.sell_signal_core]
  split
  · exact Or.inl rfl
  · split
    · rename_i res heq
      exact Or.inr (Or.inr ⟨⟨AlfaTradingBot.Direction.SELL, symbol,
        AlfaTradingBot.currentPosition env symbol⟩, res, heq, rfl, rfl⟩)
    · rename_i heq
      exact Or.inr (Or.inl ⟨_, rfl, heq⟩)

/-- Case analysis of one full decision step: either the state is unchanged
(no order, or a rejected one), or a confirmed order appended exactly one
trade record carrying the submitted direction and quantity, the current
price and the expected change. -/
theorem AlfaTradingBot.core_history_cases (st : AlfaTradingBot.State)
    (env : AlfaTradingBot.Env) (symbol : String) (mps thr c p : ℚ) :
    ((AlfaTradingBot.make_trading_decision_core st env symbol mps thr c p).1 = st ∧
      ((AlfaTradingBot.make_trading_decision_core st env symbol mps thr c p).2 = none ∨
        env.orderResult = none)) ∨
    (∃ o r,
      (AlfaTradingBot.make_trading_decision_core st env symbol mps thr c p).2 = some o ∧
      env.orderResult = some r ∧
      (AlfaTradingBot.make_trading_decision_core st env symbol mps thr c p).1.trade_history =
        st.trade_history ++
          [{ action := AlfaTradingBot.directionString o.direction, symbol := symbol,
             quantity := o.quantity, price := c,
             expected_change := (p - c) / c, order_id := r.order_id }]) := by
  simp only [AlfaTradingBot.make_trading_decision_core]
  split
  · rcases AlfaTradingBot.buy_core_cases st env symbol mps c ((p - c) / c) with
      heq | ⟨o, heq, hrej⟩ | ⟨o, r, hr, hdir, heq⟩
    · exact Or.inl ⟨by rw [heq], Or.inl (by rw [heq])⟩
    · exact Or.inl ⟨by rw [heq], Or.inr hrej⟩
    · refine Or.inr ⟨o, r, by rw [heq], hr, ?_⟩
      rw [heq, hdir]
      rfl
  · split
    · rcases AlfaTradingBot.sell_core_cases st env symbol c ((p - c) / c) with
        heq | ⟨o, heq, hrej⟩ | ⟨o, r, hr, hdir, heq⟩
      · exact Or.inl ⟨by rw [heq], Or.inl (by rw [heq])⟩
      · exact Or.inl ⟨by rw [heq], Or.inr hrej⟩
      · refine Or.inr ⟨o, r, by rw [heq], hr, ?_⟩
        rw [heq, hdir]
        rfl
    · exact Or.inl ⟨rfl, Or.inl rfl⟩

/-- The trade history grows by exactly one entry when the cycle's order was
submitted and confirmed, and is unchanged otherwise. -/
theorem AlfaTradingBot.step_history_length (cfg : AlfaTradingBot.Config)
    (st : AlfaTradingBot.State) (i : AlfaTradingBot.CycleInput) :
    (AlfaTradingBot.step cfg st i).trade_history.length =
      st.trade_history.length +
        (if AlfaTradingBot.orderConfirmed cfg st i then 1 else 0) := by
  unfold AlfaTradingBot.step AlfaTradingBot.make_trading_decision
    AlfaTradingBot.orderConfirmed
  rcases AlfaTradingBot.core_history_cases st i.env cfg.symbol
      cfg.max_position_size cfg.prediction_threshold i.current_price
      i.predicted_price with ⟨h1, h2 | h2⟩ | ⟨o, r, ho, hr, hh⟩
  · rw [h1]
    simp [h2]
  · rw [h1]
    simp [h2]
  · rw [hh]
    simp [ho, hr]

/-- C4: a trade record is appended to the Alfa bot's history iff the broker
confirmed the corresponding order; the appended record carries the
submitted direction and quantity and the cycle's current price; a rejected
order (and a cycle that submits none) leaves the state — history and
positions — unchanged; hence after any run, the history length equals its
initial length plus the number of confirmed orders, regardless of
interleaved rejected attempts. -/
theorem C4_trade_recording (cfg : AlfaTradingBot.Config) :
    (∀ (st : AlfaTradingBot.State) (i : AlfaTradingBot.CycleInput)
       (o : AlfaTradingBot.SubmittedOrder) (r : AlfaTradingBot.OrderResp),
      (AlfaTradingBot.make_trading_decision_core st i.env cfg.symbol
        cfg.max_position_size cfg.prediction_threshold i.current_price
        i.predicted_price).2 = some o →
      i.env.orderResult = some r →
      (AlfaTradingBot.step cfg st i).trade_history = st.trade_history ++
        [{ action := AlfaTradingBot.directionString o.direction,
           symbol := cfg.symbol, quantity := o.quantity,
           price := i.current_price,
           expected_change := (i.predicted_price - i.current_price) / i.current_price,
           order_id := r.order_id }]) ∧
    (∀ st i, i.env.orderResult = none → AlfaTradingBot.step cfg st i = st) ∧
    (∀ st i, (AlfaTradingBot.make_trading_decision_core st i.env cfg.symbol
        cfg.max_position_size cfg.prediction_threshold i.current_price
        i.predicted_price).2 = none → AlfaTradingBot.step cfg st i = st) ∧
    (∀ st inps, (AlfaTradingBot.run cfg st inps).trade_history.length =
      st.trade_history.length + AlfaTradingBot.confirmedCount cfg st inps) := by
  refine ⟨?_, ?_, ?_, ?_⟩
  · intro st i o r ho hr
    rcases AlfaTradingBot.core_history_cases st i.env cfg.symbol
        cfg.max_position_size cfg.prediction_threshold i.current_price
        i.predicted_price with ⟨h1, h2 | h2⟩ | ⟨o2, r2, ho2, hr2, hh⟩
    · rw [ho] at h2
      exact absurd h2 (by simp)
    · rw [hr] at h2
      exact absurd h2 (by simp)
    · rw [ho] at ho2
      rw [hr] at hr2
      injection ho2 with ho2
      injection hr2 with hr2
      rw [← ho2, ← hr2] at hh
      exact hh
  · intro st i h
    exact AlfaTradingBot.core_fst_of_rejected st i.env cfg.symbol
      cfg.max_position_size cfg.prediction_threshold i.current_price
      i.predicted_price h
  · intro st i h
    rcases AlfaTradingBot.core_history_cases st i.env cfg.symbol
        cfg.max_position_size cfg.prediction_threshold i.current_price
        i.predicted_price with ⟨h1, _⟩ | ⟨o, r, ho, _, _⟩
    · exact h1
    · rw [h] at ho
      exact absurd ho (by simp)
  · intro st inps
    induction inps generalizing st with
    | nil => rfl
    | cons i rest ih =>
      show (AlfaTradingBot.run cfg (AlfaTradingBot.step cfg st i) rest).trade_history.length = _
      rw [ih, AlfaTradingBot.step_history_length]
      show _ = st.trade_history.length +
        ((if AlfaTradingBot.orderConfirmed cfg st i then 1 else 0) +
          AlfaTradingBot.confirmedCount cfg (AlfaTradingBot.step cfg st i) rest)
      omega

/-- Witness for C4: a confirmed BUY of 10 shares at price 100 with expected
change 3% appends exactly that record to an empty history. -/
theorem C4_trade_recording_witness :
    (AlfaTradingBot.step ⟨"SBER", 1/10, 1/50⟩ ⟨[], []⟩
        ⟨⟨some [], some 10000, some ⟨some "oid"⟩⟩, 100, 103⟩).trade_history =
      [{ action := "BUY", symbol := "SBER", quantity := 10, price := 100,
         expected_change := (103 - 100) / 100, order_id := some "oid" }] := by
  have h := (C4_trade_recording ⟨"SBER", 1/10, 1/50⟩).1 ⟨[], []⟩
    ⟨⟨some [], some 10000, some ⟨some "oid"⟩⟩, 100, 103⟩
    ⟨AlfaTradingBot.Direction.BUY, "SBER", 10⟩ ⟨some "oid"⟩ (by decide) rfl
  simpa using h

end Claims
